import Mathlib

/-!
Verification of the LitePad persistence layer (src-tauri/src/main.rs):
the content-addressable image store (`save_image`, `save_downloaded_image`,
`migrate_old_image`), the archive backup engine (`perform_backup`,
`get_backup_list`, `restore_backup`, `cleanup_old_backups`) and the backup
path validator (`validate_backup_path`).

Modelling conventions:
- Bytes are naturals; every byte produced by the model is `< 256`.
- A directory is an association list from name (or relative path, with
  forward-slash separators, as produced by the backup code's separator
  normalization) to payload; lookup returns the first match, and a write
  replaces the first matching entry or appends.
- Rust strings are Lean `String`s.  The UTF-8 byte stream of a string is
  modelled at codepoint granularity by `encodeStr` / `decodeStr`:
  `encodeStr` is injective and `decodeStr` is its left inverse, and
  `decodeStr` fails on data that is not a valid encoding, which is how
  `read_to_string`'s UTF-8 validation is modelled.
- Filename comparison (`OsString::cmp` on the UTF-8 bytes) is modelled by
  the lexicographic order on codepoints `strLeB`, which agrees with the
  byte order because UTF-8 is order-preserving.
- Fallible filesystem primitives that the claims depend on are modelled
  with explicit failure oracles carried in the state (`writeFails`,
  `readFails`, `removeFails`, `metaFails`); an operation hitting a failing
  primitive returns the `Except.error` branch exactly where the Rust
  `map_err(...)?` would.  Failure of primitives no claim depends on
  (e.g. `File::open` while walking the images tree) is not modelled.
-/

/-- Byte strings: lists of naturals, each `< 256` wherever the model
produces them. -/
abbrev Bytes := List Nat

section DirModel

variable {α : Type}

/-- First-match lookup in a directory association list (also models
`ZipArchive::by_name`, which returns the first entry with that name). -/
def lookupFile : List (String × α) → String → Option α
  | [], _ => none
  | (k, v) :: rest, n => if k = n then some v else lookupFile rest n

/-- Write a payload under a name: replace the first entry with that name,
or append a fresh entry.  Models `fs::write` / `File::create` into a
directory. -/
def writeFile : List (String × α) → String → α → List (String × α)
  | [], n, c => [(n, c)]
  | (k, v) :: rest, n, c =>
    if k = n then (n, c) :: rest else (k, v) :: writeFile rest n c

theorem lookupFile_writeFile_self (l : List (String × α)) (n : String) (c : α) :
    lookupFile (writeFile l n c) n = some c := by
  induction l with
  | nil => simp [writeFile, lookupFile]
  | cons p rest ih =>
    obtain ⟨k, v⟩ := p
    by_cases h : k = n <;> simp [writeFile, lookupFile, h, ih]

theorem lookupFile_writeFile_ne (l : List (String × α)) {m n : String} (c : α)
    (h : m ≠ n) : lookupFile (writeFile l m c) n = lookupFile l n := by
  induction l with
  | nil => simp [writeFile, lookupFile, h]
  | cons p rest ih =>
    obtain ⟨k, v⟩ := p
    by_cases hk : k = m
    · subst hk
      simp [writeFile, lookupFile, h]
    · simp [writeFile, lookupFile, hk, ih]

/-- Writing back the value already stored under a name leaves the
directory unchanged. -/
theorem writeFile_eq_self_of_lookup (l : List (String × α)) (n : String) (c : α)
    (h : lookupFile l n = some c) : writeFile l n c = l := by
  induction l with
  | nil => simp [lookupFile] at h
  | cons p rest ih =>
    obtain ⟨k, v⟩ := p
    by_cases hk : k = n
    · subst hk
      simp [lookupFile] at h
      simp [writeFile, h]
    · simp [lookupFile, hk] at h
      simp [writeFile, hk, ih h]

/-- Lookup through a filter whose predicate depends only on the name. -/
theorem lookupFile_filter (l : List (String × α)) (q : String → Bool) (n : String) :
    lookupFile (l.filter (fun p => q p.1)) n
      = if q n then lookupFile l n else none := by
  induction l with
  | nil => simp [lookupFile]
  | cons p rest ih =>
    obtain ⟨k, v⟩ := p
    by_cases hk : k = n
    · subst hk
      by_cases hq : q k <;> simp [lookupFile, hq, ih]
    · by_cases hq : q k <;> simp [lookupFile, hk, hq, ih]

/-- Keys of a filter by a name-only predicate. -/
theorem map_fst_filter (l : List (String × α)) (q : String → Bool) :
    (l.filter (fun p => q p.1)).map Prod.fst = (l.map Prod.fst).filter q := by
  induction l with
  | nil => simp
  | cons p rest ih =>
    by_cases hq : q p.1 <;> simp [hq, ih]

end DirModel

/-! ### String primitives used by the Rust code -/

/-- Does `target` begin with `pat`?  Models `str::starts_with` /
`str::strip_prefix`'s match at codepoint granularity. -/
def listBeginsWith : List Char → List Char → Bool
  | [], _ => true
  | _ :: _, [] => false
  | p :: ps, c :: cs => p == c && listBeginsWith ps cs

theorem listBeginsWith_append (l r : List Char) :
    listBeginsWith l (l ++ r) = true := by
  induction l with
  | nil => rfl
  | cons c cs ih => simp [listBeginsWith, ih]

/-- Model of Rust `s.starts_with(pat)`. -/
def sw (s pat : String) : Bool := listBeginsWith pat.data s.data

/-- Model of Rust `s.ends_with(pat)` (compare the reversed codepoints). -/
def ew (s pat : String) : Bool := listBeginsWith pat.data.reverse s.data.reverse

/-- Model of Rust `s.ends_with('/')`: the last codepoint is a slash. -/
def endsSlash (s : String) : Bool := s.data.getLast? == some '/'

theorem data_append (a b : String) : (a ++ b).data = a.data ++ b.data := by
  cases a; cases b; rfl

theorem sw_append (pat rest : String) : sw (pat ++ rest) pat = true := by
  simp [sw, data_append, listBeginsWith_append]

/-- Model of `str::strip_prefix("images/")` composed with the
`starts_with` guard: drop the matched pattern length. -/
def dropImagesDir (name : String) : Option String :=
  if sw name "images/" then some ⟨name.data.drop 7⟩ else none

theorem dropImagesDir_append (rest : String) :
    dropImagesDir ("images/" ++ rest) = some rest := by
  have h : ("images/" ++ rest).data.drop 7 = rest.data := by
    rw [data_append, show (7 : Nat) = ("images/" : String).data.length from rfl]
    exact List.drop_left _ _
  unfold dropImagesDir
  rw [if_pos (sw_append "images/" rest), h]

/-- Codepoint-level model of the UTF-8 bytes of a string. -/
def encodeStr (s : String) : List Nat := s.data.map Char.toNat

/-- Codepoint-level model of UTF-8 decoding (`read_to_string`):
fails unless every unit is a valid codepoint. -/
def decodeStr (l : List Nat) : Option String :=
  if l.all (fun n => decide n.isValidChar) then some ⟨l.map Char.ofNat⟩ else none

theorem decodeStr_encodeStr (s : String) : decodeStr (encodeStr s) = some s := by
  have hmap : ∀ l : List Char, (l.map Char.toNat).map Char.ofNat = l := by
    intro l
    induction l with
    | nil => rfl
    | cons c cs ih => simp only [List.map_cons, Char.ofNat_toNat, ih]
  have hall : (encodeStr s).all (fun n => decide n.isValidChar) = true := by
    rw [List.all_eq_true]
    intro n hn
    rw [encodeStr, List.mem_map] at hn
    obtain ⟨c, _, rfl⟩ := hn
    simpa using (c.valid : c.toNat.isValidChar)
  unfold decodeStr
  rw [if_pos hall, show encodeStr s = s.data.map Char.toNat from rfl, hmap]

/-! ### SHA-256 (as computed by the `sha2` crate) over `Bytes`,
with 32-bit words as naturals reduced mod `2 ^ 32`. -/

/-- The 32-bit modulus. -/
def w32 : Nat := 4294967296

/-- Right rotation of a 32-bit word. -/
def rotr32 (n x : Nat) : Nat := ((x >>> n) ||| (x <<< (32 - n))) % w32

/-- SHA-256 choice function; bitwise not is xor with the 32-bit mask. -/
def shaCh (x y z : Nat) : Nat := (x &&& y) ^^^ ((x ^^^ 4294967295) &&& z)

/-- SHA-256 majority function. -/
def shaMaj (x y z : Nat) : Nat := (x &&& y) ^^^ (x &&& z) ^^^ (y &&& z)

/-- SHA-256 big sigma 0. -/
def bSig0 (x : Nat) : Nat := rotr32 2 x ^^^ rotr32 13 x ^^^ rotr32 22 x

/-- SHA-256 big sigma 1. -/
def bSig1 (x : Nat) : Nat := rotr32 6 x ^^^ rotr32 11 x ^^^ rotr32 25 x

/-- SHA-256 small sigma 0. -/
def sSig0 (x : Nat) : Nat := rotr32 7 x ^^^ rotr32 18 x ^^^ (x >>> 3)

/-- SHA-256 small sigma 1. -/
def sSig1 (x : Nat) : Nat := rotr32 17 x ^^^ rotr32 19 x ^^^ (x >>> 10)

/-- The 64 SHA-256 round constants (decimal). -/
def shaK : List Nat :=
  [1116352408, 1899447441, 3049323471, 3921009573, 961987163,
   1508970993, 2453635748, 2870763221, 3624381080, 310598401,
   607225278, 1426881987, 1925078388, 2162078206, 2614888103,
   3248222580, 3835390401, 4022224774, 264347078, 604807628,
   770255983, 1249150122, 1555081692, 1996064986, 2554220882,
   2821834349, 2952996808, 3210313671, 3336571891, 3584528711,
   113926993, 338241895, 666307205, 773529912, 1294757372,
   1396182291, 1695183700, 1986661051, 2177026350, 2456956037,
   2730485921, 2820302411, 3259730800, 3345764771, 3516065817,
   3600352804, 4094571909, 275423344, 430227734, 506948616,
   659060556, 883997877, 958139571, 1322822218, 1537002063,
   1747873779, 1955562222, 2024104815, 2227730452, 2361852424,
   2428436474, 2756734187, 3204031479, 3329325298]

/-- SHA-256 working state: eight 32-bit words. -/
structure Hash8 where
  a : Nat
  b : Nat
  c : Nat
  d : Nat
  e : Nat
  f : Nat
  g : Nat
  h : Nat

/-- SHA-256 initial hash value (decimal). -/
def shaH0 : Hash8 :=
  ⟨1779033703, 3144134277, 1013904242, 2773480762,
   1359893119, 2600822924, 528734635, 1541459225⟩

/-- Big-endian bytes of a 64-bit length field. -/
def be64 (n : Nat) : Bytes :=
  [(n >>> 56) % 256, (n >>> 48) % 256, (n >>> 40) % 256, (n >>> 32) % 256,
   (n >>> 24) % 256, (n >>> 16) % 256, (n >>> 8) % 256, n % 256]

/-- Big-endian bytes of a 32-bit word. -/
def be32 (n : Nat) : Bytes :=
  [(n >>> 24) % 256, (n >>> 16) % 256, (n >>> 8) % 256, n % 256]

/-- SHA-256 padding: `0x80`, zeros to 56 mod 64, the bit length big-endian. -/
def padMessage (msg : Bytes) : Bytes :=
  msg ++ [0x80] ++ List.replicate ((119 - msg.length % 64) % 64) 0
      ++ be64 (msg.length * 8)

/-- Split a byte stream into 64-byte blocks (fuel-indexed for structural
recursion; the fuel always suffices at the call site). -/
def toBlocksAux : Nat → Bytes → List Bytes
  | 0, _ => []
  | _ + 1, [] => []
  | fuel + 1, l => l.take 64 :: toBlocksAux fuel (l.drop 64)

/-- Split a padded message into its 64-byte blocks. -/
def toBlocks (l : Bytes) : List Bytes := toBlocksAux l.length l

/-- Group bytes into big-endian 32-bit words (fuel-indexed). -/
def bytesToWordsAux : Nat → Bytes → List Nat
  | 0, _ => []
  | fuel + 1, b0 :: b1 :: b2 :: b3 :: rest =>
    (b0 * 16777216 + b1 * 65536 + b2 * 256 + b3) :: bytesToWordsAux fuel rest
  | _ + 1, _ => []

/-- Bytes of one block as 16 big-endian words. -/
def bytesToWords (l : Bytes) : List Nat := bytesToWordsAux l.length l

/-- Extend the (reversed) message schedule by `n` further words. -/
def scheduleAux : Nat → List Nat → List Nat
  | 0, rw => rw
  | n + 1, rw =>
    scheduleAux n
      (((sSig1 (rw.getD 1 0) + rw.getD 6 0 + sSig0 (rw.getD 14 0)
          + rw.getD 15 0) % w32) :: rw)

/-- The 64-word SHA-256 message schedule of one block. -/
def schedule (ws : List Nat) : List Nat := (scheduleAux 48 ws.reverse).reverse

/-- One SHA-256 compression round. -/
def shaRound (s : Hash8) (kw : Nat × Nat) : Hash8 :=
  let t1 := (s.h + bSig1 s.e + shaCh s.e s.f s.g + kw.1 + kw.2) % w32
  let t2 := (bSig0 s.a + shaMaj s.a s.b s.c) % w32
  ⟨(t1 + t2) % w32, s.a, s.b, s.c, (s.d + t1) % w32, s.e, s.f, s.g⟩

/-- Compress one 64-byte block into the running hash. -/
def compressBlock (h0 : Hash8) (block : Bytes) : Hash8 :=
  let s := (shaK.zip (schedule (bytesToWords block))).foldl shaRound h0
  ⟨(h0.a + s.a) % w32, (h0.b + s.b) % w32, (h0.c + s.c) % w32,
   (h0.d + s.d) % w32, (h0.e + s.e) % w32, (h0.f + s.f) % w32,
   (h0.g + s.g) % w32, (h0.h + s.h) % w32⟩

/-- Serialize the final state to the 32 digest bytes. -/
def digestBytes (s : Hash8) : Bytes :=
  [s.a, s.b, s.c, s.d, s.e, s.f, s.g, s.h].flatMap be32

/-- SHA-256 of a byte string, as computed by `Sha256::digest`. -/
def sha256 (msg : Bytes) : Bytes :=
  digestBytes ((toBlocks (padMessage msg)).foldl compressBlock shaH0)

/-- Lowercase hex digit characters in order. -/
def lowHexChars : List Char := "0123456789abcdef".data

/-- The lowercase hex digit of a nibble. -/
def hexDigitChar (n : Nat) : Char := lowHexChars.getD n '0'

/-- Lowercase hex encoding of bytes, as computed by `hex::encode`. -/
def hexEncode (bs : Bytes) : String :=
  ⟨bs.flatMap (fun b => [hexDigitChar (b / 16), hexDigitChar (b % 16)])⟩

/-- SHA-256 digests are 32 bytes long, whatever the input. -/
theorem sha256_length (msg : Bytes) : (sha256 msg).length = 32 := rfl

/-- Every serialized 32-bit word contributes only genuine bytes. -/
theorem be32_lt (w : Nat) : ∀ x ∈ be32 w, x < 256 := by
  intro x hx
  simp only [be32, List.mem_cons, List.not_mem_nil, or_false] at hx
  rcases hx with rfl | rfl | rfl | rfl <;> exact Nat.mod_lt _ (by omega)

/-- Every digest-serialization byte is an actual byte. -/
theorem digestBytes_lt (s : Hash8) : ∀ x ∈ digestBytes s, x < 256 := by
  intro x hx
  unfold digestBytes at hx
  obtain ⟨w, _, hw⟩ := List.mem_flatMap.mp hx
  exact be32_lt _ _ hw

/-- Every SHA-256 digest byte is an actual byte. -/
theorem sha256_bytes_lt (msg : Bytes) : ∀ x ∈ sha256 msg, x < 256 := by
  intro x hx
  unfold sha256 at hx
  exact digestBytes_lt _ x hx

/-- Flat-mapping a two-character chunk per byte doubles the length. -/
theorem flatMapPair_length (f : Nat → List Char) (h2 : ∀ b, (f b).length = 2)
    (bs : List Nat) : (bs.flatMap f).length = 2 * bs.length := by
  induction bs with
  | nil => rfl
  | cons b rest ih =>
    rw [List.flatMap_cons, List.length_append, h2, ih, List.length_cons]
    omega

/-- Hex encoding of `n` bytes has `2 * n` characters. -/
theorem hexEncode_length (bs : Bytes) : (hexEncode bs).length = 2 * bs.length :=
  flatMapPair_length (fun b => [hexDigitChar (b / 16), hexDigitChar (b % 16)])
    (fun _ => rfl) bs

/-- Hex encoding of bytes uses only lowercase hex characters. -/
theorem hexEncode_lower (bs : Bytes) (hb : ∀ x ∈ bs, x < 256) :
    ∀ c ∈ (hexEncode bs).data, c ∈ lowHexChars := by
  have hdigit : ∀ n, n < 16 → hexDigitChar n ∈ lowHexChars := by decide
  intro c hc
  simp only [hexEncode, List.mem_flatMap, List.mem_cons, List.not_mem_nil,
    or_false] at hc
  obtain ⟨b, hbmem, hcases⟩ := hc
  have hblt := hb b hbmem
  rcases hcases with rfl | rfl
  · exact hdigit _ ((Nat.div_lt_iff_lt_mul (by omega)).2 (by omega))
  · exact hdigit _ (Nat.mod_lt _ (by omega))

/-- Sanity anchor: the model reproduces the standard SHA-256 digest of the
empty message. -/
theorem sha256_empty_vector :
    hexEncode (sha256 []) =
      "e3b0c44298fc1c149afbf4c8996fb92427ae41e4649b934ca495991b7852b855" := by
  decide

/-- Sanity anchor: the model reproduces the standard SHA-256 digest of the
three bytes `"abc"`. -/
theorem sha256_abc_vector :
    hexEncode (sha256 [97, 98, 99]) =
      "ba7816bf8f01cfea414140de5dae2223b00361a396177a9cb410ff61f20015ad" := by
  decide

/-! ### The content-addressable image store (BlobStore) -/

/-- State of the images root directory (`AppState.images_path`), together
with the write-failure oracle modelling `fs::write` errors. -/
structure ImagesDir where
  root : String
  dirExists : Bool
  files : List (String × Bytes)
  writeFails : String → Bool

/-- Result record of `save_image` (`SaveImageResult` in main.rs). -/
structure SaveImageResult where
  hash : String
  url : String
  size : Nat
  ext : String
deriving DecidableEq

/-- Model of `images_path.join(filename)` rendered by `to_string_lossy`. -/
def pathJoin (root filename : String) : String := root ++ "/" ++ filename

/-- Shallow embedding of `save_image` (main.rs lines 354-381): hash the
buffer, name the file `{digest}{ext}`, write only if absent, return the
descriptor with the `litepad://` URL. -/
def save_image (st : ImagesDir) (buffer : Bytes) (ext : String) :
    Except String SaveImageResult × ImagesDir :=
  let hash := hexEncode (sha256 buffer)
  let filename := hash ++ ext
  match lookupFile st.files filename with
  | some _ =>
    (.ok ⟨hash, "litepad://images/" ++ hash ++ ext, buffer.length, ext⟩, st)
  | none =>
    if st.writeFails filename then (.error "write failed", st)
    else
      (.ok ⟨hash, "litepad://images/" ++ hash ++ ext, buffer.length, ext⟩,
       { st with files := writeFile st.files filename buffer })

/-- Shallow embedding of `save_downloaded_image` (main.rs lines 408-433):
recompute the digest, fail on mismatch without writing, otherwise write
unconditionally and return the joined path. -/
def save_downloaded_image (st : ImagesDir) (hash ext : String) (buffer : Bytes) :
    Except String String × ImagesDir :=
  let filename := hash ++ ext
  let computed := hexEncode (sha256 buffer)
  if computed ≠ hash then
    (.error ("Hash mismatch: expected " ++ hash ++ ", got " ++ computed), st)
  else if st.writeFails filename then (.error "write failed", st)
  else
    (.ok (pathJoin st.root filename),
     { st with files := writeFile st.files filename buffer })

/-- Is an `Except` result the success branch? -/
def exceptOk {ε α : Type} : Except ε α → Bool
  | .ok _ => true
  | .error _ => false

/-- An empty images root with no write failures, for concrete runs. -/
def emptyStore : ImagesDir := ⟨"root", true, [], fun _ => false⟩

/-- C2: saving byte-identical content with the same extension a second
time finds the `{digest}{ext}` file already present, skips the write, and
returns the very same descriptor and the very same store state as the
first call. -/
theorem save_image_idempotent (st : ImagesDir) (buffer : Bytes) (ext : String)
    (h : exceptOk (save_image st buffer ext).1 = true) :
    save_image (save_image st buffer ext).2 buffer ext
      = save_image st buffer ext := by
  unfold save_image at h ⊢
  cases hl : lookupFile st.files (hexEncode (sha256 buffer) ++ ext) with
  | some v => simp [hl]
  | none =>
    cases hw : st.writeFails (hexEncode (sha256 buffer) ++ ext) with
    | true => simp [hl, hw, exceptOk] at h
    | false =>
      simp only [hl, hw]
      simp [lookupFile_writeFile_self]

/-- C2 witness: a concrete successful save followed by an identical one. -/
theorem save_image_idempotent_witness :
    exceptOk (save_image emptyStore [1] ".png").1 = true
      ∧ save_image (save_image emptyStore [1] ".png").2 [1] ".png"
          = save_image emptyStore [1] ".png" :=
  ⟨by decide, save_image_idempotent emptyStore [1] ".png" (by decide)⟩

/-- C3: when the recomputed digest disagrees with the claimed hash,
`save_downloaded_image` fails with the mismatch message naming the
expected and actual digests, and the images directory is unchanged. -/
theorem save_downloaded_image_hash_mismatch (st : ImagesDir) (hash ext : String)
    (buffer : Bytes) (hm : hexEncode (sha256 buffer) ≠ hash) :
    save_downloaded_image st hash ext buffer
      = (.error ("Hash mismatch: expected " ++ hash ++ ", got "
          ++ hexEncode (sha256 buffer)), st) := by
  unfold save_downloaded_image
  simp [hm]

/-- C3 witness: a concrete mismatching claimed hash. -/
theorem save_downloaded_image_hash_mismatch_witness :
    hexEncode (sha256 [1]) ≠ "00"
      ∧ save_downloaded_image emptyStore "00" ".png" [1]
          = (.error ("Hash mismatch: expected " ++ "00" ++ ", got "
              ++ hexEncode (sha256 [1])), emptyStore) :=
  ⟨by decide,
   save_downloaded_image_hash_mismatch emptyStore "00" ".png" [1] (by decide)⟩

/-- Does a string consist only of lowercase hex characters? -/
def isLowerHex (s : String) : Bool := s.data.all (fun c => decide (c ∈ lowHexChars))

/-- C6: `save_image` returns the descriptor built from the recomputed
digest (64 lowercase hex characters), the `litepad://images/{digest}{ext}`
URL, the byte length and the given extension; afterwards a file exists at
`{digest}{ext}`, holding exactly the buffer when it was freshly written;
and the call cannot fail when the file already exists. -/
theorem save_image_postcondition (st : ImagesDir) (buffer : Bytes) (ext : String)
    (hw : lookupFile st.files (hexEncode (sha256 buffer) ++ ext) = none →
      st.writeFails (hexEncode (sha256 buffer) ++ ext) = false) :
    (save_image st buffer ext).1
        = .ok ⟨hexEncode (sha256 buffer),
            "litepad://images/" ++ hexEncode (sha256 buffer) ++ ext,
            buffer.length, ext⟩
      ∧ (hexEncode (sha256 buffer)).length = 64
      ∧ isLowerHex (hexEncode (sha256 buffer)) = true
      ∧ (∃ c, lookupFile (save_image st buffer ext).2.files
            (hexEncode (sha256 buffer) ++ ext) = some c)
      ∧ (lookupFile st.files (hexEncode (sha256 buffer) ++ ext) = none →
          lookupFile (save_image st buffer ext).2.files
            (hexEncode (sha256 buffer) ++ ext) = some buffer) := by
  have hlen : (hexEncode (sha256 buffer)).length = 64 := by
    rw [hexEncode_length, sha256_length]
  have hhex : isLowerHex (hexEncode (sha256 buffer)) = true := by
    rw [isLowerHex, List.all_eq_true]
    intro c hc
    exact decide_eq_true (hexEncode_lower _ (sha256_bytes_lt buffer) c hc)
  unfold save_image
  cases hl : lookupFile st.files (hexEncode (sha256 buffer) ++ ext) with
  | some v =>
    refine ⟨by simp [hl], hlen, hhex, ⟨v, by simp [hl]⟩, by simp [hl]⟩
  | none =>
    have hw' := hw hl
    refine ⟨by simp [hl, hw'], hlen, hhex,
      ⟨buffer, by simp [hl, hw', lookupFile_writeFile_self]⟩,
      fun _ => by simp [hl, hw', lookupFile_writeFile_self]⟩

/-- C6 witness: a concrete save into an empty writable store. -/
theorem save_image_postcondition_witness :
    (lookupFile emptyStore.files (hexEncode (sha256 [1, 2, 3]) ++ ".png") = none →
      emptyStore.writeFails (hexEncode (sha256 [1, 2, 3]) ++ ".png") = false)
      ∧ ((save_image emptyStore [1, 2, 3] ".png").1
          = .ok ⟨hexEncode (sha256 [1, 2, 3]),
              "litepad://images/" ++ hexEncode (sha256 [1, 2, 3]) ++ ".png",
              ([1, 2, 3] : Bytes).length, ".png"⟩
        ∧ (hexEncode (sha256 [1, 2, 3])).length = 64
        ∧ isLowerHex (hexEncode (sha256 [1, 2, 3])) = true
        ∧ (∃ c, lookupFile (save_image emptyStore [1, 2, 3] ".png").2.files
              (hexEncode (sha256 [1, 2, 3]) ++ ".png") = some c)
        ∧ (lookupFile emptyStore.files (hexEncode (sha256 [1, 2, 3]) ++ ".png") = none →
            lookupFile (save_image emptyStore [1, 2, 3] ".png").2.files
              (hexEncode (sha256 [1, 2, 3]) ++ ".png") = some [1, 2, 3])) :=
  ⟨fun _ => rfl, save_image_postcondition emptyStore [1, 2, 3] ".png" (fun _ => rfl)⟩

/-- A store that already holds a (stale) file under the digest-derived
name of the one-byte buffer `[1]`. -/
def staleStore : ImagesDir :=
  ⟨"root", true, [(hexEncode (sha256 [1]) ++ ".png", [9])], fun _ => false⟩

/-- C9 counterexample: with the `{digest}{ext}` file already on disk,
`save_downloaded_image` does NOT skip the write — it overwrites, so the
resulting store differs from the one `save_image` (which does skip)
leaves behind. -/
theorem save_downloaded_image_not_skipped_cex :
    (save_downloaded_image staleStore (hexEncode (sha256 [1])) ".png" [1]).2.files
      ≠ (save_image staleStore [1] ".png").2.files := by
  decide

/-- C9 (amended): on a matching digest `save_downloaded_image` writes the
buffer unconditionally (overwriting any existing file rather than
skipping the write) and returns the joined on-disk path; whenever the
file is absent or already holds exactly the buffer — the invariant case
for a content-addressed store — the resulting file table coincides with
the one `save_image` produces. -/
theorem save_downloaded_image_on_match (st : ImagesDir) (buffer : Bytes)
    (ext : String)
    (hw : st.writeFails (hexEncode (sha256 buffer) ++ ext) = false) :
    save_downloaded_image st (hexEncode (sha256 buffer)) ext buffer
        = (.ok (pathJoin st.root (hexEncode (sha256 buffer) ++ ext)),
           { st with files := writeFile st.files (hexEncode (sha256 buffer) ++ ext) buffer })
      ∧ ((lookupFile st.files (hexEncode (sha256 buffer) ++ ext) = none
            ∨ lookupFile st.files (hexEncode (sha256 buffer) ++ ext) = some buffer) →
          (save_downloaded_image st (hexEncode (sha256 buffer)) ext buffer).2.files
            = (save_image st buffer ext).2.files) := by
  have hrun : save_downloaded_image st (hexEncode (sha256 buffer)) ext buffer
      = (.ok (pathJoin st.root (hexEncode (sha256 buffer) ++ ext)),
         { st with files := writeFile st.files (hexEncode (sha256 buffer) ++ ext) buffer }) := by
    unfold save_downloaded_image
    simp [hw]
  refine ⟨hrun, fun hcase => ?_⟩
  rw [hrun]
  rcases hcase with hnone | hsome
  · unfold save_image
    simp [hnone, hw]
  · unfold save_image
    simp only [hsome]
    simp [writeFile_eq_self_of_lookup st.files _ buffer hsome]

/-- C9 witness: a concrete matching download into an empty store. -/
theorem save_downloaded_image_on_match_witness :
    emptyStore.writeFails (hexEncode (sha256 [1]) ++ ".png") = false
      ∧ (save_downloaded_image emptyStore (hexEncode (sha256 [1])) ".png" [1]
          = (.ok (pathJoin emptyStore.root (hexEncode (sha256 [1]) ++ ".png")),
             { emptyStore with files := writeFile emptyStore.files (hexEncode (sha256 [1]) ++ ".png") [1] })
        ∧ ((lookupFile emptyStore.files (hexEncode (sha256 [1]) ++ ".png") = none
              ∨ lookupFile emptyStore.files (hexEncode (sha256 [1]) ++ ".png")
                  = some [1]) →
            (save_downloaded_image emptyStore (hexEncode (sha256 [1])) ".png" [1]).2.files
              = (save_image emptyStore [1] ".png").2.files)) :=
  ⟨rfl, save_downloaded_image_on_match emptyStore [1] ".png" rfl⟩

/-! ### The archive backup engine, retention and listing -/

/-- A zip archive: its entries in order, each a name with its bytes. -/
abbrev Archive := List (String × Bytes)

/-- Backup settings as read back from the settings store
(`BackupSettings` after `serde_json::from_value`). -/
structure BackupSettingsM where
  backup_directory : Option String
  max_backups : Nat

/-- State of the configured backup directory, with the failure oracles
for `read_dir` and per-file `remove_file`. -/
structure BackupDir where
  dirExists : Bool
  archives : List (String × Archive)
  readFails : Bool
  removeFails : String → Bool

/-- Does a filename match the archive naming convention, i.e.
`name.starts_with("litepad_backup_") && name.ends_with(".zip")`? -/
def isBackupName (n : String) : Bool :=
  sw n "litepad_backup_" && ew n ".zip"

/-- Lexicographic order on codepoints: the model of the byte order Rust
compares `OsString` filenames with (UTF-8 is order-preserving). -/
def strLeB : List Char → List Char → Bool
  | [], _ => true
  | _ :: _, [] => false
  | a :: as, b :: bs => if a = b then strLeB as bs else decide (a < b)

theorem strLeB_total (x y : List Char) : strLeB x y = true ∨ strLeB y x = true := by
  induction x generalizing y with
  | nil => left; rfl
  | cons a as ih =>
    cases y with
    | nil => right; rfl
    | cons b bs =>
      by_cases hab : a = b
      · subst hab
        simpa [strLeB] using ih bs
      · rcases lt_trichotomy a b with h | h | h
        · left; simp [strLeB, hab, h]
        · exact absurd h hab
        · right; simp [strLeB, Ne.symm hab, h]

theorem strLeB_trans (x y z : List Char) (h1 : strLeB x y = true)
    (h2 : strLeB y z = true) : strLeB x z = true := by
  induction x generalizing y z with
  | nil => rfl
  | cons a as ih =>
    cases y with
    | nil => simp [strLeB] at h1
    | cons b bs =>
      cases z with
      | nil => simp [strLeB] at h2
      | cons c cs =>
        by_cases hab : a = b <;> by_cases hbc : b = c
        · subst hab; subst hbc
          simp only [strLeB, if_pos rfl] at h1 h2 ⊢
          exact ih bs cs h1 h2
        · subst hab
          simp only [strLeB, if_neg hbc] at h2
          simp [strLeB, hbc, h2]
        · subst hbc
          simp only [strLeB, if_neg hab] at h1
          simp [strLeB, hab, h1]
        · simp only [strLeB, if_neg hab] at h1
          simp only [strLeB, if_neg hbc] at h2
          have hac : a < c := lt_trans (of_decide_eq_true h1) (of_decide_eq_true h2)
          simp [strLeB, ne_of_lt hac, hac]

/-- Codepoint order on strings (model of the Rust byte order). -/
def strLe (a b : String) : Prop := strLeB a.data b.data = true

instance : DecidableRel strLe := fun a b =>
  instDecidableEqBool (strLeB a.data b.data) true

/-- Descending filename order: the comparator of
`backups.sort_by(|a, b| b.file_name().cmp(&a.file_name()))`. -/
def descName (a b : String) : Prop := strLe b a

instance : DecidableRel descName := fun a b =>
  instDecidableEqBool (strLeB b.data a.data) true

instance : IsTotal String descName :=
  ⟨fun a b => (strLeB_total b.data a.data).elim Or.inl Or.inr⟩

instance : IsTrans String descName :=
  ⟨fun _ _ _ h1 h2 => strLeB_trans _ _ _ h2 h1⟩

/-- The matching archive names of a listing, newest (greatest) first. -/
def sortedBackupNames (names : List String) : List String :=
  List.insertionSort descName (names.filter isBackupName)

/-- The filenames the retention pass targets: every entry beyond index
`max_backups` in the descending order. -/
def retentionDeleteSet (names : List String) (k : Nat) : List String :=
  (sortedBackupNames names).drop k

/-- Shallow embedding of `cleanup_old_backups` (main.rs lines 589-608):
fail if `read_dir` fails; otherwise sort the matching names descending
and best-effort delete everything beyond index `max_backups` — a file
whose delete fails stays, but the pass still succeeds. -/
def cleanup_old_backups (d : BackupDir) (max_backups : Nat) :
    Except String Unit × BackupDir :=
  if d.readFails then (.error "failed to read backup directory", d)
  else
    let del := retentionDeleteSet (d.archives.map Prod.fst) max_backups
    (.ok (),
     { d with archives := d.archives.filter (fun p => !(decide (p.1 ∈ del) && !d.removeFails p.1)) })

/-- The archive entries `perform_backup` writes: `data.json` first
(verbatim snapshot bytes), then every file of the images root at
`images/<relative-path>` (forward slashes) in walk order — skipped
entirely when the images root does not exist. -/
def zipEntriesOf (data : String) (st : ImagesDir) : Archive :=
  ("data.json", encodeStr data)
    :: (if st.dirExists then st.files.map (fun q => ("images/" ++ q.1, q.2)) else [])

/-- The timestamped archive filename `litepad_backup_{ts}.zip`. -/
def backupFilename (ts : String) : String := "litepad_backup_" ++ ts ++ ".zip"

/-- Shallow embedding of `perform_backup` (main.rs lines 612-682):
configuration error if no backup directory is set; otherwise create the
directory if missing, write the full archive, then run retention —
propagating a retention listing failure. -/
def perform_backup (settings : BackupSettingsM) (data : String) (st : ImagesDir)
    (ts : String) (d : BackupDir) : Except String String × BackupDir :=
  match settings.backup_directory with
  | none => (.error "Backup directory not configured", d)
  | some _ =>
    let d1 : BackupDir := if d.dirExists then d else { d with dirExists := true }
    let filename := backupFilename ts
    let d2 : BackupDir := { d1 with archives := writeFile d1.archives filename (zipEntriesOf data st) }
    match cleanup_old_backups d2 settings.max_backups with
    | (.error e, d3) => (.error e, d3)
    | (.ok _, d3) => (.ok filename, d3)

/-- Metadata of one directory entry as observed by `get_backup_list`:
the creation time (`None` when the platform cannot report it), the size,
and whether reading the metadata itself fails. -/
structure EntryMeta where
  created : Option Int
  size : Nat
  metaFails : Bool

/-- Listing record (`BackupInfo` in main.rs). -/
structure BackupInfo where
  filename : String
  created_at : Int
  size : Nat
deriving DecidableEq

/-- The record `get_backup_list` builds for a matching entry:
`created().unwrap_or(0)` and the metadata length. -/
def toBackupInfo (p : String × EntryMeta) : BackupInfo :=
  ⟨p.1, p.2.created.getD 0, p.2.size⟩

/-- The collection loop of `get_backup_list`: keep matching names,
abort on a metadata read failure. -/
def collectBackups : List (String × EntryMeta) → Except String (List BackupInfo)
  | [] => .ok []
  | (name, m) :: rest =>
    if isBackupName name then
      if m.metaFails then .error "failed to read metadata"
      else
        match collectBackups rest with
        | .error e => .error e
        | .ok l => .ok (toBackupInfo (name, m) :: l)
    else collectBackups rest

/-- Descending creation-time order: the comparator of
`backups.sort_by(|a, b| b.created_at.cmp(&a.created_at))`. -/
def descCreated (a b : BackupInfo) : Prop := b.created_at ≤ a.created_at

instance : DecidableRel descCreated := fun a b =>
  Int.decLe b.created_at a.created_at

instance : IsTotal BackupInfo descCreated :=
  ⟨fun a b => le_total b.created_at a.created_at⟩

instance : IsTrans BackupInfo descCreated :=
  ⟨fun _ _ _ h1 h2 => le_trans h2 h1⟩

/-- Shallow embedding of `get_backup_list` (main.rs lines 686-727):
empty when unconfigured or the directory is missing; otherwise the
matching entries, stably sorted by `created_at` descending only. -/
def get_backup_list (configured : Bool) (dirExists : Bool)
    (entries : List (String × EntryMeta)) : Except String (List BackupInfo) :=
  if !configured then .ok []
  else if !dirExists then .ok []
  else
    match collectBackups entries with
    | .error e => .error e
    | .ok backups => .ok (List.insertionSort descCreated backups)

/-- The restore loop over all archive entries (main.rs lines 765-781):
every entry under `images/` that is not a directory entry is written
under the blob root at its stripped relative path, overwriting. -/
def restoreImages : Archive → List (String × Bytes) → List (String × Bytes)
  | [], dest => dest
  | (name, content) :: rest, dest =>
    if sw name "images/" && !endsSlash name then
      match dropImagesDir name with
      | some rel => restoreImages rest (writeFile dest rel content)
      | none => restoreImages rest dest
    else restoreImages rest dest

/-- Shallow embedding of `restore_backup` (main.rs lines 731-784):
open the named archive in the configured directory, read `data.json`
fully (UTF-8-validated) as the returned snapshot, then extract every
`images/` entry into the blob root. -/
def restore_backup (settings : BackupSettingsM) (filename : String)
    (d : BackupDir) (dest : ImagesDir) : Except String String × ImagesDir :=
  match settings.backup_directory with
  | none => (.error "Backup directory not configured", dest)
  | some _ =>
    match lookupFile d.archives filename with
    | none => (.error "failed to open backup archive", dest)
    | some archive =>
      match lookupFile archive "data.json" with
      | none => (.error "data.json not found in archive", dest)
      | some bs =>
        match decodeStr bs with
        | none => (.error "data.json is not valid UTF-8", dest)
        | some dataJson =>
          (.ok dataJson, { dest with files := restoreImages archive dest.files })

/-! ### The backup path validator -/

/-- Probed facts about a candidate path: its existence, whether the
`.litepad_write_test` probe file can be created in it, and the same
facts for its parent. -/
structure PathProbe where
  pathExists : Bool
  probeOk : Bool
  hasParent : Bool
  parentExists : Bool
  parentProbeOk : Bool

/-- Validation record (`PathValidationResult` in main.rs); `pexists`
models the `exists` field. -/
structure PathValidationResult where
  is_valid : Bool
  pexists : Bool
  is_writable : Bool
  error_code : Option String
deriving DecidableEq

/-- Shallow embedding of `validate_backup_path` (main.rs lines 812-862). -/
def validate_backup_path (p : PathProbe) : PathValidationResult :=
  let ex := p.pathExists
  let is_writable :=
    if ex then p.probeOk
    else if p.hasParent then (if p.parentExists then p.parentProbeOk else false)
    else false
  let vc : Bool × Option String :=
    match ex, is_writable with
    | true, true => (true, none)
    | true, false => (false, some "NO_WRITE_PERMISSION")
    | false, true => (true, none)
    | false, false => (false, some "PATH_NOT_ACCESSIBLE")
  ⟨vc.1, ex, is_writable, vc.2⟩

/-- C7: the four-row outcome matrix of `validate_backup_path`: existing
writable directory, existing non-writable directory, creatable missing
path (parent exists and is writable), and inaccessible missing path
(no parent, parent missing, or parent unwritable). -/
theorem validate_backup_path_matrix (p : PathProbe) :
    (p.pathExists = true → p.probeOk = true →
      validate_backup_path p = ⟨true, true, true, none⟩)
  ∧ (p.pathExists = true → p.probeOk = false →
      validate_backup_path p = ⟨false, true, false, some "NO_WRITE_PERMISSION"⟩)
  ∧ (p.pathExists = false → p.hasParent = true → p.parentExists = true →
      p.parentProbeOk = true →
      validate_backup_path p = ⟨true, false, true, none⟩)
  ∧ (p.pathExists = false →
      (p.hasParent = false ∨ p.parentExists = false ∨ p.parentProbeOk = false) →
      validate_backup_path p = ⟨false, false, false, some "PATH_NOT_ACCESSIBLE"⟩) := by
  obtain ⟨ex, pr, hp, pe, pp⟩ := p
  cases ex <;> cases pr <;> cases hp <;> cases pe <;> cases pp <;> decide

/-- C7 witness: one concrete probe per matrix row. -/
theorem validate_backup_path_matrix_witness :
    validate_backup_path ⟨true, true, true, true, true⟩ = ⟨true, true, true, none⟩
  ∧ validate_backup_path ⟨true, false, true, true, true⟩
      = ⟨false, true, false, some "NO_WRITE_PERMISSION"⟩
  ∧ validate_backup_path ⟨false, false, true, true, true⟩
      = ⟨true, false, true, none⟩
  ∧ validate_backup_path ⟨false, false, true, false, true⟩
      = ⟨false, false, false, some "PATH_NOT_ACCESSIBLE"⟩ :=
  ⟨(validate_backup_path_matrix ⟨true, true, true, true, true⟩).1 rfl rfl,
   (validate_backup_path_matrix ⟨true, false, true, true, true⟩).2.1 rfl rfl,
   (validate_backup_path_matrix ⟨false, false, true, true, true⟩).2.2.1 rfl rfl rfl rfl,
   (validate_backup_path_matrix ⟨false, false, true, false, true⟩).2.2.2 rfl
     (Or.inr (Or.inl rfl))⟩

/-- C8: with no backup directory configured, `perform_backup` fails with
the configuration error and the backup directory state is untouched — no
directory is created and no archive is written. -/
theorem perform_backup_unconfigured (settings : BackupSettingsM) (data : String)
    (st : ImagesDir) (ts : String) (d : BackupDir)
    (h : settings.backup_directory = none) :
    perform_backup settings data st ts d
      = (.error "Backup directory not configured", d) := by
  unfold perform_backup
  rw [h]

/-- C8 witness: a concrete unconfigured run. -/
theorem perform_backup_unconfigured_witness :
    (⟨none, 5⟩ : BackupSettingsM).backup_directory = none
      ∧ perform_backup ⟨none, 5⟩ "snap" emptyStore "20250101_000000"
          ⟨false, [], false, fun _ => false⟩
        = (.error "Backup directory not configured",
           ⟨false, [], false, fun _ => false⟩) :=
  ⟨rfl, perform_backup_unconfigured ⟨none, 5⟩ "snap" emptyStore "20250101_000000"
    ⟨false, [], false, fun _ => false⟩ rfl⟩

/-- Creating the backup directory when missing changes nothing but the
existence flag. -/
theorem ensureDir_eq (d : BackupDir) :
    (if d.dirExists then d else { d with dirExists := true })
      = { d with dirExists := true } := by
  by_cases h : d.dirExists = true
  · obtain ⟨de, ar, rf, rm⟩ := d
    simp only at h
    simp [h]
  · simp only [Bool.not_eq_true] at h
    simp [h]

/-- C10: after the archive has been fully written, a failure of the
retention pass's directory listing makes the whole `perform_backup`
return an error — even though the freshly written archive is present in
the directory state it returns. -/
theorem cleanup_old_backups_readFails (d : BackupDir) (k : Nat)
    (h : d.readFails = true) :
    cleanup_old_backups d k = (.error "failed to read backup directory", d) := by
  unfold cleanup_old_backups
  rw [if_pos h]

theorem perform_backup_list_failure_after_write (settings : BackupSettingsM)
    (data : String) (st : ImagesDir) (ts : String) (d : BackupDir)
    (hdir : settings.backup_directory.isSome = true) (hread : d.readFails = true) :
    (perform_backup settings data st ts d).1
        = .error "failed to read backup directory"
      ∧ lookupFile (perform_backup settings data st ts d).2.archives
          (backupFilename ts) = some (zipEntriesOf data st) := by
  obtain ⟨dir, hd⟩ := Option.isSome_iff_exists.mp hdir
  unfold perform_backup
  rw [hd]
  dsimp only
  rw [ensureDir_eq]
  dsimp only
  rw [cleanup_old_backups_readFails ⟨true, writeFile d.archives (backupFilename ts) (zipEntriesOf data st), d.readFails, d.removeFails⟩ settings.max_backups hread]
  exact ⟨rfl, lookupFile_writeFile_self _ _ _⟩

/-- C10 witness: a concrete run whose retention listing fails. -/
theorem perform_backup_list_failure_after_write_witness :
    (⟨some "B", 5⟩ : BackupSettingsM).backup_directory.isSome = true
      ∧ (⟨true, [], true, fun _ => false⟩ : BackupDir).readFails = true
      ∧ ((perform_backup ⟨some "B", 5⟩ "snap" emptyStore "20250101_000000"
            ⟨true, [], true, fun _ => false⟩).1
          = .error "failed to read backup directory"
        ∧ lookupFile (perform_backup ⟨some "B", 5⟩ "snap" emptyStore "20250101_000000"
            ⟨true, [], true, fun _ => false⟩).2.archives
            (backupFilename "20250101_000000")
          = some (zipEntriesOf "snap" emptyStore)) :=
  ⟨rfl, rfl, perform_backup_list_failure_after_write ⟨some "B", 5⟩ "snap" emptyStore
    "20250101_000000" ⟨true, [], true, fun _ => false⟩ rfl rfl⟩

/-- The retention pass away from the failure branch: filter out the
targeted names whose delete succeeds. -/
theorem cleanup_old_backups_run (d : BackupDir) (k : Nat)
    (hread : d.readFails = false) :
    cleanup_old_backups d k
      = (.ok (), { d with archives := d.archives.filter (fun p => !(decide (p.1 ∈ retentionDeleteSet (d.archives.map Prod.fst) k) && !d.removeFails p.1)) }) := by
  unfold cleanup_old_backups
  rw [if_neg (by simp [hread])]

/-- C4: with a successful directory listing the retention pass returns
success whatever the individual deletes do (failures are swallowed);
the matching names are ranked in descending filename order; and when
every targeted delete succeeds, exactly `min k n` matching archives
remain, namely the `k` greatest names of that order. -/
theorem cleanup_old_backups_retention (d : BackupDir) (k : Nat)
    (hread : d.readFails = false)
    (hnd : (d.archives.map Prod.fst).Nodup) :
    (cleanup_old_backups d k).1 = .ok ()
  ∧ List.Sorted descName (sortedBackupNames (d.archives.map Prod.fst))
  ∧ ((∀ n ∈ retentionDeleteSet (d.archives.map Prod.fst) k,
        d.removeFails n = false) →
      List.Perm
        (((cleanup_old_backups d k).2.archives.map Prod.fst).filter isBackupName)
        ((sortedBackupNames (d.archives.map Prod.fst)).take k)
      ∧ (((cleanup_old_backups d k).2.archives.map Prod.fst).filter isBackupName).length
          = min k ((d.archives.map Prod.fst).filter isBackupName).length) := by
  have hperm : List.Perm (sortedBackupNames (d.archives.map Prod.fst))
      ((d.archives.map Prod.fst).filter isBackupName) :=
    List.perm_insertionSort descName _
  have hSorted : List.Sorted descName (sortedBackupNames (d.archives.map Prod.fst)) :=
    List.sorted_insertionSort descName _
  refine ⟨by rw [cleanup_old_backups_run d k hread], hSorted, fun hdelOk => ?_⟩
  have hq :
      (((cleanup_old_backups d k).2.archives.map Prod.fst).filter isBackupName)
        = ((d.archives.map Prod.fst).filter isBackupName).filter
            (fun n => !(decide (n ∈ retentionDeleteSet (d.archives.map Prod.fst) k)
              && !d.removeFails n)) := by
    rw [cleanup_old_backups_run d k hread]
    rw [map_fst_filter d.archives
      (fun n => !(decide (n ∈ retentionDeleteSet (d.archives.map Prod.fst) k)
        && !d.removeFails n))]
    rw [List.filter_filter, List.filter_filter]
    exact List.filter_congr (fun a _ => Bool.and_comm _ _)
  have hndSorted : (sortedBackupNames (d.archives.map Prod.fst)).Nodup :=
    (hperm.nodup_iff).mpr (List.Nodup.filter _ hnd)
  have hsplit : sortedBackupNames (d.archives.map Prod.fst)
      = (sortedBackupNames (d.archives.map Prod.fst)).take k
        ++ (sortedBackupNames (d.archives.map Prod.fst)).drop k :=
    (List.take_append_drop k _).symm
  have hdisj : List.Disjoint ((sortedBackupNames (d.archives.map Prod.fst)).take k)
      ((sortedBackupNames (d.archives.map Prod.fst)).drop k) := by
    have := hndSorted
    rw [hsplit] at this
    exact (List.nodup_append.mp this).2.2
  have hfilterSorted :
      (sortedBackupNames (d.archives.map Prod.fst)).filter
          (fun n => !(decide (n ∈ retentionDeleteSet (d.archives.map Prod.fst) k)
            && !d.removeFails n))
        = (sortedBackupNames (d.archives.map Prod.fst)).take k := by
    conv_lhs => rw [hsplit]
    rw [List.filter_append]
    have h1 : ((sortedBackupNames (d.archives.map Prod.fst)).take k).filter
        (fun n => !(decide (n ∈ retentionDeleteSet (d.archives.map Prod.fst) k)
          && !d.removeFails n))
        = (sortedBackupNames (d.archives.map Prod.fst)).take k := by
      rw [List.filter_eq_self]
      intro a ha
      have hnotdel : a ∉ retentionDeleteSet (d.archives.map Prod.fst) k :=
        fun hmem => hdisj ha hmem
      simp [hnotdel]
    have h2 : ((sortedBackupNames (d.archives.map Prod.fst)).drop k).filter
        (fun n => !(decide (n ∈ retentionDeleteSet (d.archives.map Prod.fst) k)
          && !d.removeFails n))
        = [] := by
      rw [List.filter_eq_nil_iff]
      intro a ha
      have hmem : a ∈ retentionDeleteSet (d.archives.map Prod.fst) k := ha
      simp [hmem, hdelOk a hmem]
    rw [h1, h2, List.append_nil]
  have hpermFinal :
      List.Perm
        (((cleanup_old_backups d k).2.archives.map Prod.fst).filter isBackupName)
        ((sortedBackupNames (d.archives.map Prod.fst)).take k) := by
    rw [hq, ← hfilterSorted]
    exact (hperm.filter _).symm
  refine ⟨hpermFinal, ?_⟩
  rw [hpermFinal.length_eq, List.length_take, hperm.length_eq]

/-- A backup directory holding three matching archives, for concrete
retention runs. -/
def retentionDir : BackupDir :=
  ⟨true,
   [("litepad_backup_20250103_000000.zip", []),
    ("litepad_backup_20250101_000000.zip", []),
    ("litepad_backup_20250102_000000.zip", [])],
   false, fun _ => false⟩

/-- C4 witness: a concrete retention pass with three archives and cap 2. -/
theorem cleanup_old_backups_retention_witness :
    retentionDir.readFails = false
  ∧ (retentionDir.archives.map Prod.fst).Nodup
  ∧ ((cleanup_old_backups retentionDir 2).1 = .ok ()
    ∧ List.Sorted descName (sortedBackupNames (retentionDir.archives.map Prod.fst))
    ∧ ((∀ n ∈ retentionDeleteSet (retentionDir.archives.map Prod.fst) 2,
          retentionDir.removeFails n = false) →
        List.Perm
          (((cleanup_old_backups retentionDir 2).2.archives.map Prod.fst).filter isBackupName)
          ((sortedBackupNames (retentionDir.archives.map Prod.fst)).take 2)
        ∧ (((cleanup_old_backups retentionDir 2).2.archives.map Prod.fst).filter isBackupName).length
            = min 2 ((retentionDir.archives.map Prod.fst).filter isBackupName).length)) :=
  ⟨rfl, by decide, cleanup_old_backups_retention retentionDir 2 rfl (by decide)⟩

/-- The collection loop succeeds when no matching entry's metadata read
fails, producing exactly the matching entries in listing order. -/
theorem collectBackups_ok (entries : List (String × EntryMeta))
    (hmeta : ∀ p ∈ entries, isBackupName p.1 = true → p.2.metaFails = false) :
    collectBackups entries
      = .ok ((entries.filter (fun p => isBackupName p.1)).map toBackupInfo) := by
  induction entries with
  | nil => rfl
  | cons p rest ih =>
    obtain ⟨name, m⟩ := p
    have hrest : ∀ q ∈ rest, isBackupName q.1 = true → q.2.metaFails = false :=
      fun q hq => hmeta q (List.mem_cons_of_mem _ hq)
    by_cases hb : isBackupName name = true
    · have hm : m.metaFails = false := hmeta (name, m) (List.mem_cons_self _ _) hb
      simp [collectBackups, hb, hm, ih hrest]
    · simp only [Bool.not_eq_true] at hb
      simp [collectBackups, hb, ih hrest]

/-- The spec-side order "created_at descending, ties broken by ascending
filename" (filename order modelled as the byte order `strLe`). -/
def specTieAsc (a b : BackupInfo) : Prop :=
  b.created_at < a.created_at
    ∨ (a.created_at = b.created_at ∧ strLe a.filename b.filename)

/-- The spec-side order "created_at descending, ties broken by
descending filename" (the other reading of the tie-break). -/
def specTieDesc (a b : BackupInfo) : Prop :=
  b.created_at < a.created_at
    ∨ (a.created_at = b.created_at ∧ strLe b.filename a.filename)

instance : DecidableRel specTieAsc := fun a b => by
  unfold specTieAsc
  infer_instance

instance : DecidableRel specTieDesc := fun a b => by
  unfold specTieDesc
  infer_instance

/-- A directory listing with three matching archives whose creation
times are all unreportable, listed in neither ascending nor descending
filename order. -/
def tieEntries : List (String × EntryMeta) :=
  [("litepad_backup_b.zip", ⟨none, 10, false⟩),
   ("litepad_backup_a.zip", ⟨none, 11, false⟩),
   ("litepad_backup_c.zip", ⟨none, 12, false⟩)]

/-- C5 counterexample: the sort is by `created_at` alone — with all
creation times equal the listing order survives, so the result is NOT
ordered by any filename tie-break, neither ascending nor descending. -/
theorem get_backup_list_no_filename_tiebreak_cex :
    get_backup_list true true tieEntries
        = .ok [⟨"litepad_backup_b.zip", 0, 10⟩, ⟨"litepad_backup_a.zip", 0, 11⟩,
               ⟨"litepad_backup_c.zip", 0, 12⟩]
      ∧ ¬ List.Pairwise specTieAsc
          [(⟨"litepad_backup_b.zip", 0, 10⟩ : BackupInfo),
           ⟨"litepad_backup_a.zip", 0, 11⟩, ⟨"litepad_backup_c.zip", 0, 12⟩]
      ∧ ¬ List.Pairwise specTieDesc
          [(⟨"litepad_backup_b.zip", 0, 10⟩ : BackupInfo),
           ⟨"litepad_backup_a.zip", 0, 11⟩, ⟨"litepad_backup_c.zip", 0, 12⟩] := by
  refine ⟨by rfl, by decide, by decide⟩

/-- C5 (amended): an empty listing when no directory is configured or
the directory is missing; otherwise exactly the matching entries — each
carrying `created().unwrap_or(0)` and its size — sorted by `created_at`
descending only, ties left in directory-listing order rather than broken
by filename. -/
theorem get_backup_list_spec (configured dirExists : Bool)
    (entries : List (String × EntryMeta))
    (hmeta : ∀ p ∈ entries, isBackupName p.1 = true → p.2.metaFails = false) :
    (configured = false → get_backup_list configured dirExists entries = .ok [])
  ∧ (dirExists = false → get_backup_list configured dirExists entries = .ok [])
  ∧ (configured = true → dirExists = true →
      get_backup_list configured dirExists entries
          = .ok (List.insertionSort descCreated
              ((entries.filter (fun p => isBackupName p.1)).map toBackupInfo))
        ∧ List.Perm
            (List.insertionSort descCreated
              ((entries.filter (fun p => isBackupName p.1)).map toBackupInfo))
            ((entries.filter (fun p => isBackupName p.1)).map toBackupInfo)
        ∧ List.Sorted descCreated
            (List.insertionSort descCreated
              ((entries.filter (fun p => isBackupName p.1)).map toBackupInfo))) := by
  refine ⟨fun hc => by subst hc; rfl, fun hde => ?_, fun hc hde => ?_⟩
  · subst hde
    unfold get_backup_list
    cases configured <;> rfl
  · subst hc; subst hde
    refine ⟨?_, List.perm_insertionSort descCreated _,
      List.sorted_insertionSort descCreated _⟩
    unfold get_backup_list
    rw [collectBackups_ok entries hmeta]
    rfl

/-- C5 witness: the amended listing behavior on a concrete directory. -/
theorem get_backup_list_spec_witness :
    (∀ p ∈ tieEntries, isBackupName p.1 = true → p.2.metaFails = false)
  ∧ ((false = false → get_backup_list false true tieEntries = .ok [])
    ∧ (true = false → get_backup_list false true tieEntries = .ok [])
    ∧ (false = true → true = true →
        get_backup_list false true tieEntries
            = .ok (List.insertionSort descCreated
                ((tieEntries.filter (fun p => isBackupName p.1)).map toBackupInfo))
          ∧ List.Perm
              (List.insertionSort descCreated
                ((tieEntries.filter (fun p => isBackupName p.1)).map toBackupInfo))
              ((tieEntries.filter (fun p => isBackupName p.1)).map toBackupInfo)
          ∧ List.Sorted descCreated
              (List.insertionSort descCreated
                ((tieEntries.filter (fun p => isBackupName p.1)).map toBackupInfo)))) :=
  ⟨by decide, get_backup_list_spec false true tieEntries (by decide)⟩

/-- A restore-loop step on an entry outside `images/` (or a directory
entry) changes nothing. -/
theorem restoreImages_cons_skip (name : String) (content : Bytes) (rest : Archive)
    (dest : List (String × Bytes))
    (h : (sw name "images/" && !endsSlash name) = false) :
    restoreImages ((name, content) :: rest) dest = restoreImages rest dest := by
  conv_lhs => unfold restoreImages
  rw [h, if_neg Bool.false_ne_true]

/-- A restore-loop step on a non-directory `images/` entry writes the
stripped relative path. -/
theorem restoreImages_cons_write (name rel : String) (content : Bytes)
    (rest : Archive) (dest : List (String × Bytes))
    (h : (sw name "images/" && !endsSlash name) = true)
    (hrel : dropImagesDir name = some rel) :
    restoreImages ((name, content) :: rest) dest
      = restoreImages rest (writeFile dest rel content) := by
  conv_lhs => unfold restoreImages
  rw [h, if_pos rfl, hrel]

/-- Prefixing a nonempty relative path that does not end in a slash with
`images/` still does not end in a slash. -/
theorem endsSlash_images_append (rel : String) (h1 : rel.data ≠ [])
    (h2 : rel.data.getLast? ≠ some '/') :
    endsSlash ("images/" ++ rel) = false := by
  unfold endsSlash
  rw [data_append, List.getLast?_append]
  cases hl : rel.data.getLast? with
  | none =>
    exact absurd (by simpa using hl) h1
  | some c =>
    have hc : some c ≠ some '/' := fun hceq => h2 (hl.trans hceq)
    simpa [Option.or] using beq_eq_false_iff_ne.mpr hc

/-- Restoring mapped image entries leaves every other name unchanged. -/
theorem restoreImages_lookup_of_not_mem (images : List (String × Bytes))
    (dest : List (String × Bytes)) (n : String)
    (hn : n ∉ images.map Prod.fst) :
    lookupFile (restoreImages (images.map (fun q => ("images/" ++ q.1, q.2))) dest) n
      = lookupFile dest n := by
  induction images generalizing dest with
  | nil => rfl
  | cons q rest ih =>
    obtain ⟨nm, cont⟩ := q
    have hn1 : n ≠ nm := by
      intro h
      exact hn (by simp [h])
    have hnrest : n ∉ rest.map Prod.fst := by
      intro h
      exact hn (by simp [h])
    rw [List.map_cons]
    by_cases hcond : (sw ("images/" ++ nm) "images/" && !endsSlash ("images/" ++ nm)) = true
    · rw [restoreImages_cons_write _ nm cont _ dest hcond (dropImagesDir_append nm)]
      rw [ih (writeFile dest nm cont) hnrest]
      exact lookupFile_writeFile_ne dest cont (Ne.symm hn1)
    · rw [restoreImages_cons_skip _ cont _ dest (Bool.not_eq_true _ ▸ hcond)]
      exact ih dest hnrest

/-- Restoring mapped image entries with distinct valid relative paths
makes every one of them retrievable with its exact bytes. -/
theorem restoreImages_roundtrip (images : List (String × Bytes))
    (hpaths : ∀ p ∈ images, p.1.data ≠ [] ∧ p.1.data.getLast? ≠ some '/')
    (hnd : (images.map Prod.fst).Nodup) (dest : List (String × Bytes)) :
    ∀ p ∈ images,
      lookupFile (restoreImages (images.map (fun q => ("images/" ++ q.1, q.2))) dest) p.1
        = some p.2 := by
  induction images generalizing dest with
  | nil => intro p hp; cases hp
  | cons q rest ih =>
    intro p hp
    obtain ⟨nm, cont⟩ := q
    have hq := hpaths (nm, cont) (List.mem_cons_self _ _)
    have hcond : (sw ("images/" ++ nm) "images/" && !endsSlash ("images/" ++ nm)) = true := by
      rw [sw_append, endsSlash_images_append nm hq.1 hq.2]
      rfl
    rw [List.map_cons] at hnd
    have hndc := List.nodup_cons.mp hnd
    rw [List.map_cons,
      restoreImages_cons_write _ nm cont _ dest hcond (dropImagesDir_append nm)]
    rcases List.mem_cons.mp hp with rfl | hp2
    · rw [restoreImages_lookup_of_not_mem rest (writeFile dest nm cont) nm hndc.1]
      exact lookupFile_writeFile_self dest nm cont
    · exact ih (fun r hr => hpaths r (List.mem_cons_of_mem _ hr)) hndc.2
        (writeFile dest nm cont) p hp2

/-- Restoring an archive whose first entry is a verbatim `data.json`
returns the snapshot text and extracts the remaining entries. -/
theorem restore_backup_of_lookup (settings : BackupSettingsM) (fname : String)
    (d : BackupDir) (dest : ImagesDir) (data : String) (tail : Archive)
    (hdir : settings.backup_directory.isSome = true)
    (hlook : lookupFile d.archives fname
      = some (("data.json", encodeStr data) :: tail)) :
    restore_backup settings fname d dest
      = (.ok data,
         { dest with files := restoreImages (("data.json", encodeStr data) :: tail) dest.files }) := by
  obtain ⟨dir, hd⟩ := Option.isSome_iff_exists.mp hdir
  unfold restore_backup
  rw [hd]
  dsimp only
  rw [hlook]
  dsimp only
  rw [show lookupFile (("data.json", encodeStr data) :: tail) "data.json"
      = some (encodeStr data) from by simp [lookupFile]]
  dsimp only
  rw [decodeStr_encodeStr]

/-- C1: the backup/restore round-trip.  Provided a backup directory is
configured, the retention listing succeeds and the fresh archive is not
itself within the retention delete set, `perform_backup` succeeds with
the timestamped filename; restoring that archive returns a snapshot
string equal to the input, and every file of the images root at backup
time is afterwards present in the restored blob root at the same
relative path with byte-identical content. -/
theorem backup_restore_roundtrip (settings : BackupSettingsM) (data : String)
    (st : ImagesDir) (dest : ImagesDir) (ts : String) (d : BackupDir)
    (hdir : settings.backup_directory.isSome = true)
    (hread : d.readFails = false)
    (hie : st.dirExists = true)
    (hpaths : ∀ p ∈ st.files, p.1.data ≠ [] ∧ p.1.data.getLast? ≠ some '/')
    (hnd : (st.files.map Prod.fst).Nodup)
    (hkeep : backupFilename ts ∉
      retentionDeleteSet ((writeFile d.archives (backupFilename ts)
        (zipEntriesOf data st)).map Prod.fst) settings.max_backups) :
    (perform_backup settings data st ts d).1 = .ok (backupFilename ts)
  ∧ (restore_backup settings (backupFilename ts)
      (perform_backup settings data st ts d).2 dest).1 = .ok data
  ∧ ∀ p ∈ st.files,
      lookupFile (restore_backup settings (backupFilename ts)
          (perform_backup settings data st ts d).2 dest).2.files p.1
        = some p.2 := by
  have hperform : perform_backup settings data st ts d
      = (.ok (backupFilename ts),
         ⟨true,
          (writeFile d.archives (backupFilename ts) (zipEntriesOf data st)).filter (fun p => !(decide (p.1 ∈ retentionDeleteSet ((writeFile d.archives (backupFilename ts) (zipEntriesOf data st)).map Prod.fst) settings.max_backups) && !d.removeFails p.1)),
          d.readFails, d.removeFails⟩) := by
    obtain ⟨dir, hd⟩ := Option.isSome_iff_exists.mp hdir
    unfold perform_backup
    rw [hd]
    dsimp only
    rw [ensureDir_eq]
    dsimp only
    rw [cleanup_old_backups_run ⟨true, writeFile d.archives (backupFilename ts) (zipEntriesOf data st), d.readFails, d.removeFails⟩ settings.max_backups hread]
  have harch : lookupFile (perform_backup settings data st ts d).2.archives
      (backupFilename ts) = some (zipEntriesOf data st) := by
    rw [hperform]
    dsimp only
    rw [lookupFile_filter (writeFile d.archives (backupFilename ts) (zipEntriesOf data st)) (fun n => !(decide (n ∈ retentionDeleteSet ((writeFile d.archives (backupFilename ts) (zipEntriesOf data st)).map Prod.fst) settings.max_backups) && !d.removeFails n)) (backupFilename ts)]
    rw [if_pos (by simp [hkeep])]
    exact lookupFile_writeFile_self _ _ _
  have htail : zipEntriesOf data st
      = ("data.json", encodeStr data)
        :: st.files.map (fun q => ("images/" ++ q.1, q.2)) := by
    unfold zipEntriesOf
    rw [hie]
    rfl
  have hrestore := restore_backup_of_lookup settings (backupFilename ts)
    (perform_backup settings data st ts d).2 dest data
    (st.files.map (fun q => ("images/" ++ q.1, q.2))) hdir
    (by rw [harch, htail])
  refine ⟨by rw [hperform], by rw [hrestore], fun p hp => ?_⟩
  rw [hrestore]
  dsimp only
  rw [restoreImages_cons_skip _ _ _ _ (by decide)]
  exact restoreImages_roundtrip st.files hpaths hnd dest.files p hp

/-- A source images root with one blob, for the concrete round-trip. -/
def srcStore : ImagesDir := ⟨"root", true, [("a.png", [1, 2])], fun _ => false⟩

/-- A restore-target images root, for the concrete round-trip. -/
def destStore : ImagesDir := ⟨"root2", true, [], fun _ => false⟩

/-- An empty, healthy backup directory, for the concrete round-trip. -/
def emptyBackupDir : BackupDir := ⟨false, [], false, fun _ => false⟩

/-- C1 witness: a concrete full round-trip of one snapshot and one blob. -/
theorem backup_restore_roundtrip_witness :
    ((⟨some "B", 5⟩ : BackupSettingsM).backup_directory.isSome = true
      ∧ emptyBackupDir.readFails = false
      ∧ srcStore.dirExists = true
      ∧ (∀ p ∈ srcStore.files, p.1.data ≠ [] ∧ p.1.data.getLast? ≠ some '/')
      ∧ (srcStore.files.map Prod.fst).Nodup
      ∧ backupFilename "20250102_030405" ∉
          retentionDeleteSet ((writeFile emptyBackupDir.archives
            (backupFilename "20250102_030405")
            (zipEntriesOf "hi" srcStore)).map Prod.fst) 5)
  ∧ ((perform_backup ⟨some "B", 5⟩ "hi" srcStore "20250102_030405" emptyBackupDir).1
        = .ok (backupFilename "20250102_030405")
    ∧ (restore_backup ⟨some "B", 5⟩ (backupFilename "20250102_030405")
        (perform_backup ⟨some "B", 5⟩ "hi" srcStore "20250102_030405" emptyBackupDir).2
        destStore).1 = .ok "hi"
    ∧ ∀ p ∈ srcStore.files,
        lookupFile (restore_backup ⟨some "B", 5⟩ (backupFilename "20250102_030405")
            (perform_backup ⟨some "B", 5⟩ "hi" srcStore "20250102_030405" emptyBackupDir).2
            destStore).2.files p.1
          = some p.2) :=
  ⟨⟨rfl, rfl, rfl, by decide, by decide, by decide⟩,
   backup_restore_roundtrip ⟨some "B", 5⟩ "hi" srcStore destStore "20250102_030405"
     emptyBackupDir rfl rfl rfl (by decide) (by decide) (by decide)⟩
